import Mathlib

/-!
# Verification of the metric-matrix formula-tree engine

Shallow embedding of `src/app/services/formula-tree.service.ts` (class
`FormulaTreeService`) and `src/app/models/formula-node.model.ts`.

Modelling conventions:

* JavaScript numbers are modelled by `JsNum`: an exact rational together with
  the IEEE special values `Infinity`, `-Infinity` and `NaN`.  Finite
  arithmetic is exact (no double rounding, no negative zero); the special
  values follow the IEEE rules that JavaScript uses (`1/0 = Infinity`,
  `0/0 = NaN`, `Infinity - Infinity = NaN`, ...).  No claim in this
  development depends on rounding.
* JavaScript `Map` is modelled as an association list in insertion order
  (`mapGet` = `Map.get`, first match; `mapSet` = `Map.set`, replace in place
  or append; `mapDelete` = `Map.delete`).
* The `new Function("return " + cleaned)()` call inside `safeEvaluate` is
  modelled by a lexer/evaluator for the JavaScript arithmetic grammar over
  the whitelisted characters `[0-9+*/().-]` (the only strings that reach it):
  numeric literals, `+ - * /`, parentheses, unary signs, `//` line comments
  and `/* */` block comments, with `--`/`++` rejected as JavaScript rejects
  them on literals.  A `/` in operand position (a JavaScript regex literal)
  is modelled as an evaluation failure; in JavaScript every such expression
  produces a non-number or `NaN` and therefore also ends as a failure result
  of `evaluateFormula` (only the error message differs, which no claim
  inspects).  Legacy octal literals are read as decimal.
* Recursive procedures whose JavaScript termination argument is "the visited
  set grows inside a finite map" are defined with an explicit `fuel`
  parameter; `evalNodeF_stable` proves that the result is independent of the
  fuel once it exceeds the number of unvisited registry keys, and the
  fuel-free wrapper `evaluateNode` instantiates the sufficient fuel.
-/

/-- A JavaScript number: exact rational, or one of the IEEE special values. -/
inductive JsNum where
  | num (q : ℚ)
  | inf
  | negInf
  | nan
deriving DecidableEq, Repr

/-! Kernel-computable rational arithmetic.  The core `Rat.add`/`Rat.mul`/...
are compiler intrinsics that the kernel cannot unfold, so the model computes
with `Rat.divInt` over `num`/`den` directly; the results are the same
rational numbers (`den` is always positive). -/

/-- Rational addition, kernel-computable. -/
def ratAdd (a b : ℚ) : ℚ :=
  Rat.divInt (a.num * (b.den : Int) + b.num * (a.den : Int)) ((a.den : Int) * (b.den : Int))

/-- Rational subtraction, kernel-computable. -/
def ratSub (a b : ℚ) : ℚ :=
  Rat.divInt (a.num * (b.den : Int) - b.num * (a.den : Int)) ((a.den : Int) * (b.den : Int))

/-- Rational multiplication, kernel-computable. -/
def ratMul (a b : ℚ) : ℚ :=
  Rat.divInt (a.num * b.num) ((a.den : Int) * (b.den : Int))

/-- Rational division (callers rule out a zero divisor), kernel-computable. -/
def ratDiv (a b : ℚ) : ℚ :=
  Rat.divInt (a.num * (b.den : Int)) ((a.den : Int) * b.num)

/-- Rational negation, kernel-computable. -/
def ratNeg (a : ℚ) : ℚ :=
  Rat.divInt (-a.num) (a.den : Int)

/-- `a < b` on rationals, kernel-computable. -/
def ratLtB (a b : ℚ) : Bool :=
  decide (a.num * (b.den : Int) < b.num * (a.den : Int))

/-- `a = 0` on rationals, kernel-computable. -/
def ratIsZero (a : ℚ) : Bool :=
  a.num == 0

/-- `0 < a` on rationals, kernel-computable. -/
def ratIsPos (a : ℚ) : Bool :=
  decide (0 < a.num)

/-- JavaScript `+` on numbers. -/
def jsAdd : JsNum → JsNum → JsNum
  | .nan, _ => .nan
  | _, .nan => .nan
  | .inf, .negInf => .nan
  | .inf, _ => .inf
  | .negInf, .inf => .nan
  | .negInf, _ => .negInf
  | .num _, .inf => .inf
  | .num _, .negInf => .negInf
  | .num a, .num b => .num (ratAdd a b)

/-- JavaScript `-` on numbers. -/
def jsSub : JsNum → JsNum → JsNum
  | .nan, _ => .nan
  | _, .nan => .nan
  | .inf, .inf => .nan
  | .inf, _ => .inf
  | .negInf, .negInf => .nan
  | .negInf, _ => .negInf
  | .num _, .inf => .negInf
  | .num _, .negInf => .inf
  | .num a, .num b => .num (ratSub a b)

/-- JavaScript `*` on numbers. -/
def jsMul : JsNum → JsNum → JsNum
  | .nan, _ => .nan
  | _, .nan => .nan
  | .inf, .inf => .inf
  | .inf, .negInf => .negInf
  | .negInf, .inf => .negInf
  | .negInf, .negInf => .inf
  | .inf, .num b => if ratIsZero b then .nan else if ratIsPos b then .inf else .negInf
  | .num a, .inf => if ratIsZero a then .nan else if ratIsPos a then .inf else .negInf
  | .negInf, .num b => if ratIsZero b then .nan else if ratIsPos b then .negInf else .inf
  | .num a, .negInf => if ratIsZero a then .nan else if ratIsPos a then .negInf else .inf
  | .num a, .num b => .num (ratMul a b)

/-- JavaScript `/` on numbers (division by zero gives a signed infinity,
`0/0` gives `NaN`; the model has no negative zero). -/
def jsDiv : JsNum → JsNum → JsNum
  | .nan, _ => .nan
  | _, .nan => .nan
  | .inf, .inf => .nan
  | .inf, .negInf => .nan
  | .negInf, .inf => .nan
  | .negInf, .negInf => .nan
  | .inf, .num b => if ratLtB b 0 then .negInf else .inf
  | .negInf, .num b => if ratLtB b 0 then .inf else .negInf
  | .num _, .inf => .num 0
  | .num _, .negInf => .num 0
  | .num a, .num b =>
    if ratIsZero b then (if ratIsZero a then .nan else if ratIsPos a then .inf else .negInf)
    else .num (ratDiv a b)

/-- JavaScript unary `-` on numbers. -/
def jsNeg : JsNum → JsNum
  | .num a => .num (ratNeg a)
  | .inf => .negInf
  | .negInf => .inf
  | .nan => .nan

/-- JavaScript `Math.abs`. -/
def jsAbs : JsNum → JsNum
  | .num a => if ratLtB a 0 then .num (ratNeg a) else .num a
  | .inf => .inf
  | .negInf => .inf
  | .nan => .nan

/-- JavaScript `<` on numbers (`false` whenever `NaN` is involved). -/
def jsLt : JsNum → JsNum → Bool
  | .nan, _ => false
  | _, .nan => false
  | .negInf, .negInf => false
  | .negInf, _ => true
  | .inf, _ => false
  | .num _, .inf => true
  | .num _, .negInf => false
  | .num a, .num b => ratLtB a b

/-- JavaScript `isFinite`. -/
def jsIsFinite : JsNum → Bool
  | .num _ => true
  | _ => false

/-- `Number.prototype.toString` for the values the engine renders during
variable substitution.  Integers print as in JavaScript (`"-5"`, `"100"`);
a non-integer with a terminating decimal expansion prints as its shortest
decimal (`"0.15"`); a non-terminating rational (which JavaScript, computing
in doubles, would print as a rounded decimal — a case no claim exercises)
prints as a parenthesised fraction. -/
def toStringJS : JsNum → String
  | .nan => "NaN"
  | .inf => "Infinity"
  | .negInf => "-Infinity"
  | .num q =>
    if q.den = 1 then toString q.num
    else
      let sign := if q.num < 0 then "-" else ""
      let n := q.num.natAbs
      let d := q.den
      match (List.range 41).find? (fun k => decide (0 < k) && (n * 10 ^ k) % d == 0) with
      | some k =>
        let scaled := n * 10 ^ k / d
        let ip := scaled / 10 ^ k
        let fp := scaled % 10 ^ k
        let fpStr := toString fp
        let pad := String.mk (List.replicate (k - fpStr.length) '0')
        sign ++ toString ip ++ "." ++ pad ++ fpStr
      | none => sign ++ "(" ++ toString n ++ "/" ++ toString d ++ ")"

/-- A character of the JavaScript `\w` class (exactly `[A-Za-z0-9_]`). -/
def isWordCharJS (c : Char) : Bool :=
  ('a' ≤ c && c ≤ 'z') || ('A' ≤ c && c ≤ 'Z') || ('0' ≤ c && c ≤ '9') || c == '_'

/-- A character of the JavaScript `\s` class (ASCII part; the engine never
produces the Unicode space characters). -/
def isJsSpace (c : Char) : Bool :=
  c == ' ' || c == '\t' || c == '\n' || c == '\r' || c == Char.ofNat 11 || c == Char.ofNat 12

/-- `expression.replace(/\s/g, '')` from `safeEvaluate`. -/
def removeWhitespace (s : String) : String :=
  String.mk (s.data.filter (fun c => !isJsSpace c))

/-- The character whitelist of `safeEvaluate`: the body of the regular
expression `^[0-9+\-*/().]+$`. -/
def allowedChar (c : Char) : Bool :=
  ('0' ≤ c && c ≤ '9') || c == '+' || c == '-' || c == '*' || c == '/' ||
    c == '(' || c == ')' || c == '.'

/-- The test `/^[0-9+\-*/().]+$/.test(cleaned)` from `safeEvaluate`
(at least one character, all from the whitelist). -/
def validChars (s : String) : Bool :=
  !s.data.isEmpty && s.data.all allowedChar

/-- The evaluation context of `formula-node.model.ts` (`EvaluationContext`):
a JavaScript object used as a map from variable name to number, kept in key
insertion order. -/
abbrev EvaluationContext := List (String × JsNum)

/-- JavaScript object property assignment `context[key] = value`: overwrite
in place if the key exists (keeping its position), otherwise append. -/
def ctxSet : EvaluationContext → String → JsNum → EvaluationContext
  | [], k, v => [(k, v)]
  | (k', v') :: rest, k, v =>
    if k' = k then (k, v) :: rest else (k', v') :: ctxSet rest k v

/-- The `\b` assertion of a JavaScript regex between two adjacent positions
(characters `a` and `b`, `none` = outside the string): exactly one side is a
word character. -/
def wordBoundary (a : Option Char) (b : Option Char) : Bool :=
  (a.elim false isWordCharJS) != (b.elim false isWordCharJS)

/-- Core of `expression.replace(new RegExp("\\b" + key + "\\b", 'g'), val)`:
left-to-right non-overlapping replacement of `key` at word boundaries;
replacements are not rescanned (matching happens on the original string).
`fuel` is a step bound; every step consumes at least one character, so
`s.length + 1` is always sufficient. -/
def replaceWBAux (key val : List Char) : Nat → Option Char → List Char → List Char
  | 0, _, rest => rest
  | _ + 1, _, [] => []
  | fuel + 1, prev, c :: rest =>
    if !key.isEmpty && key.isPrefixOf (c :: rest)
        && wordBoundary prev (some c)
        && wordBoundary key.getLast? ((c :: rest).drop key.length).head? then
      val ++ replaceWBAux key val fuel key.getLast? ((c :: rest).drop key.length)
    else
      c :: replaceWBAux key val fuel (some c) rest

/-- `expression.replace(new RegExp("\\b" + key + "\\b", 'g'), val)` from
`evaluateFormula`.  The source interpolates `key` into the regex verbatim;
the model matches it literally, which coincides for the identifier-shaped
names the engine uses.  An empty key is returned unchanged (JavaScript's
empty-pattern corner case, never produced by the engine). -/
def replaceWordBounded (s key val : String) : String :=
  if key.data.isEmpty then s
  else String.mk (replaceWBAux key.data val.data (s.data.length + 1) none s.data)

/-- The substitution loop of `evaluateFormula`: for each context entry, in
insertion order, replace the variable at word boundaries by its rendered
value. -/
def substituteAll (formula : String) (context : EvaluationContext) : String :=
  context.foldl (fun e kv => replaceWordBounded e kv.1 (toStringJS kv.2)) formula

/-! ## The arithmetic evaluator behind `new Function` -/

/-- Tokens of the whitelisted JavaScript arithmetic grammar. -/
inductive Tok where
  | tnum (q : ℚ)
  | lparen
  | rparen
  | tplus
  | tminus
  | tstar
  | tslash
deriving DecidableEq, Repr

/-- Value of a digit string. -/
def digitsToNat (ds : List Char) : Nat :=
  ds.foldl (fun a c => a * 10 + (c.toNat - '0'.toNat)) 0

/-- Value of a JavaScript numeric literal `d1 "." d2`. -/
def litToRat (d1 d2 : List Char) : ℚ :=
  Rat.divInt (digitsToNat d1 * 10 ^ d2.length + digitsToNat d2) ((10 ^ d2.length : Nat) : Int)

/-- Skip to the end of a `/* ... */` block comment; `none` if unterminated
(a JavaScript syntax error). -/
def skipBlock : List Char → Option (List Char)
  | [] => none
  | '*' :: '/' :: rest => some rest
  | _ :: rest => skipBlock rest

/-- Lexer for the whitelisted arithmetic strings.  `--` and `++` lex as
JavaScript increment/decrement punctuators, which are syntax errors on the
literals that follow them, so they are rejected; `//` starts a line comment
(the rest of the input is ignored); `/*` starts a block comment.  `fuel`
is a step bound; every step consumes at least one character. -/
def lexAux : Nat → List Char → Option (List Tok)
  | 0, _ => none
  | _ + 1, [] => some []
  | fuel + 1, c :: rest =>
    if c == '(' then (lexAux fuel rest).map (Tok.lparen :: ·)
    else if c == ')' then (lexAux fuel rest).map (Tok.rparen :: ·)
    else if c == '+' then
      match rest with
      | '+' :: _ => none
      | _ => (lexAux fuel rest).map (Tok.tplus :: ·)
    else if c == '-' then
      match rest with
      | '-' :: _ => none
      | _ => (lexAux fuel rest).map (Tok.tminus :: ·)
    else if c == '*' then
      -- `**` would be JavaScript exponentiation; it lexes here as two star
      -- tokens and fails in the evaluator.  The engine's expression language
      -- has no exponentiation and no claim exercises it.
      (lexAux fuel rest).map (Tok.tstar :: ·)
    else if c == '/' then
      match rest with
      | '/' :: _ => some []
      | '*' :: r2 =>
        match skipBlock r2 with
        | some r3 => lexAux fuel r3
        | none => none
      | _ => (lexAux fuel rest).map (Tok.tslash :: ·)
    else if c.isDigit || c == '.' then
      let d1 := (c :: rest).takeWhile Char.isDigit
      let r1 := (c :: rest).drop d1.length
      match r1 with
      | '.' :: r2 =>
        let d2 := r2.takeWhile Char.isDigit
        let r3 := r2.drop d2.length
        if d1.isEmpty && d2.isEmpty then none
        else (lexAux fuel r3).map (Tok.tnum (litToRat d1 d2) :: ·)
      | _ => (lexAux fuel r1).map (Tok.tnum (litToRat d1 []) :: ·)
    else none

/-- Mode of the recursive-descent evaluator: additive level, additive loop
with an accumulator, multiplicative level and loop, unary level, primary. -/
inductive PMode where
  | padd
  | paddL (acc : JsNum)
  | pmul
  | pmulL (acc : JsNum)
  | punary
  | pprim

/-- Recursive-descent evaluation of the token stream with JavaScript
precedence (`+ -` < `* /` < unary sign < literal/parentheses).  A `/` in
operand position fails (see the header note on regex literals).  `fuel`
bounds the call depth; `4 * length + 8` is always sufficient. -/
def parseTok : Nat → PMode → List Tok → Option (JsNum × List Tok)
  | 0, _, _ => none
  | fuel + 1, m, ts =>
    match m with
    | .padd =>
      match parseTok fuel .pmul ts with
      | some (v, ts1) => parseTok fuel (.paddL v) ts1
      | none => none
    | .paddL acc =>
      match ts with
      | .tplus :: ts1 =>
        match parseTok fuel .pmul ts1 with
        | some (v, ts2) => parseTok fuel (.paddL (jsAdd acc v)) ts2
        | none => none
      | .tminus :: ts1 =>
        match parseTok fuel .pmul ts1 with
        | some (v, ts2) => parseTok fuel (.paddL (jsSub acc v)) ts2
        | none => none
      | _ => some (acc, ts)
    | .pmul =>
      match parseTok fuel .punary ts with
      | some (v, ts1) => parseTok fuel (.pmulL v) ts1
      | none => none
    | .pmulL acc =>
      match ts with
      | .tstar :: ts1 =>
        match parseTok fuel .punary ts1 with
        | some (v, ts2) => parseTok fuel (.pmulL (jsMul acc v)) ts2
        | none => none
      | .tslash :: ts1 =>
        match parseTok fuel .punary ts1 with
        | some (v, ts2) => parseTok fuel (.pmulL (jsDiv acc v)) ts2
        | none => none
      | _ => some (acc, ts)
    | .punary =>
      match ts with
      | .tplus :: ts1 => parseTok fuel .punary ts1
      | .tminus :: ts1 => (parseTok fuel .punary ts1).map (fun vr => (jsNeg vr.1, vr.2))
      | _ => parseTok fuel .pprim ts
    | .pprim =>
      match ts with
      | .tnum q :: ts1 => some (.num q, ts1)
      | .lparen :: ts1 =>
        match parseTok fuel .padd ts1 with
        | some (v, .rparen :: ts2) => some (v, ts2)
        | _ => none
      | _ => none

/-- Evaluation of a whitelisted string as a JavaScript expression: the model
of `new Function("return " + cleaned)()`. -/
def evalJsExpr (s : String) : Except String JsNum :=
  match lexAux (s.data.length + 1) s.data with
  | none => Except.error "SyntaxError: Invalid or unexpected token"
  | some ts =>
    match parseTok (4 * ts.length + 8) .padd ts with
    | some (v, []) => Except.ok v
    | _ => Except.error "SyntaxError: Unexpected token"

/-- `safeEvaluate` (formula-tree.service.ts, lines 215–227): strip
whitespace, check the character whitelist (throwing — here: returning an
error — on any other character), then evaluate as arithmetic.  The thrown
`Error('Invalid characters in expression')` is rendered the way the caller
interpolates it. -/
def safeEvaluate (expression : String) : Except String JsNum :=
  let cleaned := removeWhitespace expression
  if !validChars cleaned then Except.error "Error: Invalid characters in expression"
  else evalJsExpr cleaned

/-- `EvaluationResult` from `formula-node.model.ts`. -/
structure EvaluationResult where
  success : Bool
  value : Option JsNum := none
  error : Option String := none
deriving DecidableEq, Repr

/-- `evaluateFormula` (formula-tree.service.ts, lines 187–209): substitute
every context variable at word boundaries, evaluate through `safeEvaluate`,
accept any non-`NaN` number, catch every thrown error as a failure result.
The function is total: no exception propagates to the caller. -/
def evaluateFormula (formula : String) (context : EvaluationContext) : EvaluationResult :=
  let expression := substituteAll formula context
  match safeEvaluate expression with
  | Except.ok r =>
    if r = JsNum.nan then
      { success := false, error := some "Formula evaluation resulted in non-numeric value" }
    else
      { success := true, value := some r }
  | Except.error e =>
    { success := false, error := some ("Formula evaluation error: " ++ e) }
/-! ## Data model: nodes and the registry -/

/-- `FormulaNode` from `formula-node.model.ts`.  Optional TypeScript fields
are `Option`s (`none` = the property is absent / `undefined`); the
`'formula' | 'factor'` union is kept as a string, as in the source. -/
structure FormulaNode where
  id : String
  name : String
  type : String
  formula : Option String := none
  value : Option JsNum := none
  childrenIds : List String := []
  computedValue : Option JsNum := none
  description : Option String := none
  unit : Option String := none
  parentIds : Option (List String) := none
deriving DecidableEq, Repr

/-- `Map.get`: first entry with the key. -/
def mapGet : List (String × FormulaNode) → String → Option FormulaNode
  | [], _ => none
  | (k, v) :: rest, id => if k = id then some v else mapGet rest id

/-- `Map.set`: replace in place if the key exists, otherwise append. -/
def mapSet : List (String × FormulaNode) → String → FormulaNode → List (String × FormulaNode)
  | [], id, v => [(id, v)]
  | (k, w) :: rest, id, v =>
    if k = id then (id, v) :: rest else (k, w) :: mapSet rest id v

/-- `Map.delete`: drop the entry with the key. -/
def mapDelete : List (String × FormulaNode) → String → List (String × FormulaNode)
  | [], _ => []
  | (k, w) :: rest, id => if k = id then rest else (k, w) :: mapDelete rest id

/-- `NodeRegistry` from `formula-node.model.ts`: the node map (in insertion
order) and the explicit root-id list. -/
structure NodeRegistry where
  nodes : List (String × FormulaNode) := []
  rootNodeIds : List String := []
deriving DecidableEq, Repr

/-- `getNode` / `this.registry.nodes.get(nodeId)`. -/
def regGet (reg : NodeRegistry) (nodeId : String) : Option FormulaNode :=
  mapGet reg.nodes nodeId

/-- `this.registry.nodes.set(nodeId, node)`. -/
def regSet (reg : NodeRegistry) (nodeId : String) (node : FormulaNode) : NodeRegistry :=
  { reg with nodes := mapSet reg.nodes nodeId node }

/-- Remove the first occurrence of an element from a list
(`indexOf` + `splice(index, 1)`). -/
def removeFirst : List String → String → List String
  | [], _ => []
  | x :: xs, a => if x = a then xs else x :: removeFirst xs a

/-! ## `evaluateNode` (formula-tree.service.ts, lines 124–165)

The JavaScript recursion terminates because each recursive call's visiting
set contains strictly more registry keys; the model makes the recursion
structural on an explicit `fuel` and proves below (`evalNodeF_stable`) that
any fuel above the number of unvisited registry keys gives the same result,
which the wrapper `evaluateNode` instantiates. -/

/-- The failure results of `evaluateNode`, as records. -/
def fuelExhaustedRes : EvaluationResult :=
  { success := false, error := some "evaluation fuel exhausted" }

/-- `{ success: false, error: 'Node not found' }`. -/
def notFoundRes : EvaluationResult :=
  { success := false, error := some "Node not found" }

/-- `{ success: false, error: 'Circular dependency detected' }`. -/
def circularRes : EvaluationResult :=
  { success := false, error := some "Circular dependency detected" }

/-- `{ success: false, error: 'No formula defined' }`. -/
def noFormulaRes : EvaluationResult :=
  { success := false, error := some "No formula defined" }

/-- The child loop of `evaluateNode`: for each child id, if the child is in
the registry, evaluate it with a copy of the visiting set (`ev`, already
carrying that set) and then read the child's possibly updated
`computedValue` (default 0) into the context under the child's name.  The
child object is re-read from the registry after the call because the
JavaScript code holds a live reference that the recursive call mutates. -/
def evalChildrenWith (ev : NodeRegistry → String → NodeRegistry × EvaluationResult) :
    List String → NodeRegistry → EvaluationContext → NodeRegistry × EvaluationContext
  | [], reg, context => (reg, context)
  | childId :: rest, reg, context =>
    match mapGet reg.nodes childId with
    | none => evalChildrenWith ev rest reg context
    | some child =>
      let r := ev reg childId
      let c := (mapGet r.1.nodes childId).getD child
      evalChildrenWith ev rest r.1 (ctxSet context c.name (c.computedValue.getD (.num 0)))

/-- `evaluateNode(nodeId, visitedNodes)` with explicit fuel.  Mirrors the
source: not-found check, circular check against the visiting set, the
factor shortcut (`computedValue = value ?? 0`), the falsy-formula check
(`undefined` or `""`), the child loop with a copied visiting set per child
(child results discarded), then the formula evaluation, storing
`computedValue` only on success. -/
def evalNodeF : Nat → NodeRegistry → String → List String → NodeRegistry × EvaluationResult
  | 0, reg, _, _ => (reg, fuelExhaustedRes)
  | fuel + 1, reg, nodeId, visited =>
    match mapGet reg.nodes nodeId with
    | none => (reg, notFoundRes)
    | some node =>
      if nodeId ∈ visited then (reg, circularRes)
      else
        let visited' := nodeId :: visited
        if node.type = "factor" then
          let cv := node.value.getD (.num 0)
          (regSet reg nodeId { node with computedValue := some cv },
            { success := true, value := some cv })
        else
          match node.formula with
          | none => (reg, noFormulaRes)
          | some f =>
            if f = "" then (reg, noFormulaRes)
            else
              let rc := evalChildrenWith (fun r i => evalNodeF fuel r i visited')
                node.childrenIds reg []
              let result := evaluateFormula f rc.2
              if result.success ∧ result.value ≠ none then
                let live := (mapGet rc.1.nodes nodeId).getD node
                (regSet rc.1 nodeId { live with computedValue := result.value }, result)
              else
                (rc.1, result)

/-- Number of registry keys not yet in the visiting set: the depth bound of
the `evaluateNode` recursion. -/
def unvisitedCount (reg : NodeRegistry) (visited : List String) : Nat :=
  ((reg.nodes.map Prod.fst).filter (fun k => !visited.contains k)).length

/-- `evaluateNode(nodeId, visitedNodes = new Set())`: the fuel-free wrapper,
with fuel one more than the recursion-depth bound (`evalNodeF_stable`
below shows any larger fuel gives the same result). -/
def evaluateNode (reg : NodeRegistry) (nodeId : String) (visited : List String := []) :
    NodeRegistry × EvaluationResult :=
  evalNodeF (unvisitedCount reg visited + 1) reg nodeId visited

/-- `evaluateTree(nodeId)`. -/
def evaluateTree (reg : NodeRegistry) (nodeId : String) : NodeRegistry :=
  (evaluateNode reg nodeId []).1

/-- `evaluateAllRoots()`: evaluate every root id with a fresh empty visiting
set.  (`evaluateNode` never touches `rootNodeIds`, so iterating the initial
list matches the JavaScript live iteration.) -/
def evaluateAllRoots (reg : NodeRegistry) : NodeRegistry :=
  reg.rootNodeIds.foldl (fun r rootId => (evaluateNode r rootId []).1) reg
/-! ## Registry operations -/

/-- `clearRegistry()`. -/
def clearRegistry (_reg : NodeRegistry) : NodeRegistry :=
  { nodes := [], rootNodeIds := [] }

/-- `addRootNode(nodeId)`: idempotent, order-preserving append. -/
def addRootNode (reg : NodeRegistry) (nodeId : String) : NodeRegistry :=
  if reg.rootNodeIds.contains nodeId then reg
  else { reg with rootNodeIds := reg.rootNodeIds ++ [nodeId] }

/-- `removeRootNode(nodeId)`: remove the first occurrence if present. -/
def removeRootNode (reg : NodeRegistry) (nodeId : String) : NodeRegistry :=
  { reg with rootNodeIds := removeFirst reg.rootNodeIds nodeId }

/-- `addChild(parentId, childId)` (lines 232–255): if both nodes exist and
the child is not already listed, push it, mirror the back-reference in the
child's `parentIds`, and re-evaluate a formula parent.  The child node is
re-read after the parent update because in JavaScript parent and child may
be the same live object. -/
def addChild (reg : NodeRegistry) (parentId childId : String) : NodeRegistry :=
  match mapGet reg.nodes parentId, mapGet reg.nodes childId with
  | some parent, some child =>
    if parent.childrenIds.contains childId then reg
    else
      let reg1 := regSet reg parentId { parent with childrenIds := parent.childrenIds ++ [childId] }
      let child1 := (mapGet reg1.nodes childId).getD child
      let ps := child1.parentIds.getD []
      let reg2 :=
        if ps.contains parentId then reg1
        else regSet reg1 childId { child1 with parentIds := some (ps ++ [parentId]) }
      if parent.type = "formula" then (evaluateNode reg2 parentId []).1 else reg2
  | _, _ => reg

/-- `removeChild(parentId, childId)` (lines 260–286): splice the first
occurrence from the parent's `childrenIds`, splice the parent from the
child's `parentIds`, re-evaluate a formula parent; `true` iff a splice
happened.  The child node is re-read after the parent update (live
references in JavaScript). -/
def removeChild (reg : NodeRegistry) (parentId childId : String) : NodeRegistry × Bool :=
  match mapGet reg.nodes parentId, mapGet reg.nodes childId with
  | some parent, some child =>
    if parent.childrenIds.contains childId then
      let reg1 := regSet reg parentId
        { parent with childrenIds := removeFirst parent.childrenIds childId }
      let child1 := (mapGet reg1.nodes childId).getD child
      let reg2 :=
        match child1.parentIds with
        | none => reg1
        | some ps =>
          if ps.contains parentId then
            regSet reg1 childId { child1 with parentIds := some (removeFirst ps parentId) }
          else reg1
      ((if parent.type = "formula" then (evaluateNode reg2 parentId []).1 else reg2), true)
    else (reg, false)
  | _, _ => (reg, false)

/-- `Partial<FormulaNode>` as passed to `updateNode`: `none` = field absent. -/
structure NodeUpdates where
  id : Option String := none
  name : Option String := none
  type : Option String := none
  formula : Option String := none
  value : Option JsNum := none
  childrenIds : Option (List String) := none
  computedValue : Option JsNum := none
  description : Option String := none
  unit : Option String := none
  parentIds : Option (List String) := none
deriving DecidableEq, Repr

/-- `Object.assign(node, updates)`: overwrite each present field. -/
def assignNode (n : FormulaNode) (u : NodeUpdates) : FormulaNode :=
  { id := u.id.getD n.id
    name := u.name.getD n.name
    type := u.type.getD n.type
    formula := if u.formula.isSome then u.formula else n.formula
    value := if u.value.isSome then u.value else n.value
    childrenIds := u.childrenIds.getD n.childrenIds
    computedValue := if u.computedValue.isSome then u.computedValue else n.computedValue
    description := if u.description.isSome then u.description else n.description
    unit := if u.unit.isSome then u.unit else n.unit
    parentIds := if u.parentIds.isSome then u.parentIds else n.parentIds }

/-- `updateNode(nodeId, updates)` (lines 291–306): merge the fields; for a
factor with a supplied `value`, set `computedValue` and re-evaluate every
root; for a formula, re-evaluate just that node. -/
def updateNode (reg : NodeRegistry) (nodeId : String) (updates : NodeUpdates) : NodeRegistry :=
  match mapGet reg.nodes nodeId with
  | none => reg
  | some node =>
    let node1 := assignNode node updates
    let reg1 := regSet reg nodeId node1
    if node1.type = "factor" ∧ updates.value.isSome then
      let reg2 := regSet reg1 nodeId { node1 with computedValue := updates.value }
      evaluateAllRoots reg2
    else if node1.type = "formula" then
      (evaluateNode reg1 nodeId []).1
    else reg1

/-- `deleteNode(nodeId)` (lines 535–564).  The source iterates
`node.parentIds` with `for...of` while each `removeChild` call may splice
that very array; the JavaScript array iterator reads the live array by
index, so the model advances an index `i` over the live list, checking
`i < length` each step.  (`removeChild` never lengthens any `parentIds`
list, so at most the original length many iterations can run, and once
`i ≥ length` holds it holds for every later `i` — iterating
`List.range` of the original length is therefore exactly the live loop.)
Then parent references to the deleted node are spliced out of each child,
the node is removed from the root list, and its map entry is deleted. -/
def deleteNode (reg : NodeRegistry) (nodeId : String) : NodeRegistry :=
  match mapGet reg.nodes nodeId with
  | none => reg
  | some node =>
    let reg1 :=
      match node.parentIds with
      | none => reg
      | some ps =>
        (List.range ps.length).foldl (fun r i =>
          match mapGet r.nodes nodeId with
          | none => r
          | some nd =>
            let live := nd.parentIds.getD []
            if h : i < live.length then (removeChild r (live.get ⟨i, h⟩) nodeId).1 else r) reg
    let node1 := (mapGet reg1.nodes nodeId).getD node
    let reg2 := node1.childrenIds.foldl (fun r childId =>
      match mapGet r.nodes childId with
      | none => r
      | some child =>
        match child.parentIds with
        | none => r
        | some ps =>
          if ps.contains nodeId then
            regSet r childId { child with parentIds := some (removeFirst ps nodeId) }
          else r) reg1
    let reg3 := removeRootNode reg2 nodeId
    { reg3 with nodes := mapDelete reg3.nodes nodeId }

/-! ## Node creation (`generateId` made deterministic)

`generateId` draws on `Date.now()` and `Math.random()` purely to make fresh
opaque ids; the model replaces that entropy by a counter in a service state.
No claim depends on the id strings, only on their uniqueness. -/

/-- The mutable state of `FormulaTreeService`: the registry plus the id
entropy source. -/
structure ServiceState where
  registry : NodeRegistry := {}
  idCounter : Nat := 0
deriving DecidableEq, Repr

/-- `generateId()`. -/
def generateId (s : ServiceState) : String × ServiceState :=
  ("node_" ++ toString s.idCounter, { s with idCounter := s.idCounter + 1 })

/-- `createFactorNode(name, value, description?, unit?)` (lines 54–68):
build the node with `computedValue = value`, register it, return its id. -/
def createFactorNode (s : ServiceState) (name : String) (value : JsNum)
    (description : Option String := none) (unit : Option String := none) :
    String × ServiceState :=
  let (id, s1) := generateId s
  let node : FormulaNode :=
    { id := id, name := name, type := "factor", value := some value,
      childrenIds := [], computedValue := some value,
      description := description, unit := unit, parentIds := some [] }
  (id, { s1 with registry := regSet s1.registry id node })

/-- `createFormulaNode(name, formula, childNodeIds, description?, unit?)`
(lines 74–100): build the node, push its id into each existing child's
`parentIds` (unconditionally — no duplicate check), register it, then
evaluate it. -/
def createFormulaNode (s : ServiceState) (name formula : String)
    (childNodeIds : List String) (description : Option String := none)
    (unit : Option String := none) : String × ServiceState :=
  let (id, s1) := generateId s
  let node : FormulaNode :=
    { id := id, name := name, type := "formula", formula := some formula,
      childrenIds := childNodeIds, computedValue := none,
      description := description, unit := unit, parentIds := some [] }
  let reg1 := childNodeIds.foldl (fun r childId =>
    match mapGet r.nodes childId with
    | none => r
    | some child =>
      let ps := child.parentIds.getD []
      regSet r childId { child with parentIds := some (ps ++ [id]) }) s1.registry
  let reg2 := regSet reg1 id node
  let reg3 := (evaluateNode reg2 id []).1
  (id, { s1 with registry := reg3 })
/-! ## The reverse solver (`computeChildValue`, lines 317–530)

The six algebraic patterns are the regexes
`^name\s*OP\s*(.+)$` / `^(.+)\s*OP\s*name$` with the child's name
interpolated verbatim.  The model matches the name literally, which is the
regex's meaning for the identifier-shaped names the engine uses.  JavaScript
regex semantics is kept: `\s*` munches greedily (`OP` is never a whitespace
character), `(.+)` is greedy, matches no newline and must be nonempty, with
backtracking into the preceding `\s*` when it would otherwise be empty. -/

/-- `(.+)$` after `OP\s*` in the name-first patterns: greedy `\s*`, then a
nonempty newline-free remainder, backtracking one whitespace character when
the remainder would be empty. -/
def patTail (r2 : List Char) : Option (List Char) :=
  let ws := r2.takeWhile isJsSpace
  let tail := r2.drop ws.length
  if !tail.isEmpty then
    (if tail.all (· ≠ '\n') then some tail else none)
  else
    match ws.getLast? with
    | some c => if c ≠ '\n' then some [c] else none
    | none => none

/-- Match `^name\s*OP\s*(.+)$`, returning the captured group. -/
def matchPatA (formula name : String) (op : Char) : Option String :=
  if name.data.isPrefixOf formula.data then
    match (formula.data.drop name.data.length).dropWhile isJsSpace with
    | c :: r2 => if c = op then (patTail r2).map String.mk else none
    | [] => none
  else none

/-- Does a remainder match `\s*OP\s*name$`? -/
def patBCheck (rest : List Char) (op : Char) (name : List Char) : Bool :=
  match rest.dropWhile isJsSpace with
  | c :: r2 => c == op && (r2.dropWhile isJsSpace) == name
  | [] => false

/-- Match `^(.+)\s*OP\s*name$`, returning the captured group (greedy: the
longest nonempty newline-free prefix whose remainder matches). -/
def matchPatB (formula name : String) (op : Char) : Option String :=
  let f := formula.data
  let maxLen := (f.takeWhile (· ≠ '\n')).length
  ((List.range maxLen).reverse.filterMap (fun j =>
    if patBCheck (f.drop (j + 1)) op name.data then some (String.mk (f.take (j + 1)))
    else none)).head?

/-- `formula.match(multiplyPattern1) || formula.match(multiplyPattern2)`. -/
def matchMul (formula name : String) : Option String :=
  matchPatA formula name '*' <|> matchPatB formula name '*'

/-- `formula.match(addPattern1) || formula.match(addPattern2)`. -/
def matchAdd (formula name : String) : Option String :=
  matchPatA formula name '+' <|> matchPatB formula name '+'

/-- The sibling context of `trySolveAlgebraically`: every child of the
parent except the target child (compared by node `id`), at its current
`computedValue ?? 0`. -/
def algebraicContext (reg : NodeRegistry) (parent child : FormulaNode) : EvaluationContext :=
  parent.childrenIds.foldl (fun ctx cId =>
    match mapGet reg.nodes cId with
    | none => ctx
    | some c =>
      if c.id = child.id then ctx
      else ctxSet ctx c.name (c.computedValue.getD (.num 0))) []

/-- One algebraic block of `trySolveAlgebraically`: if the pattern matched,
evaluate the captured `otherPart` in the sibling context; if the evaluation
succeeded (with a value) and the block's guard holds, produce the inverted
result; otherwise fall through to the next block. -/
def algStep (m : Option String) (context : EvaluationContext)
    (guard : JsNum → Bool) (invert : JsNum → JsNum) : Option EvaluationResult :=
  match m with
  | none => none
  | some otherPart =>
    let ov := evaluateFormula otherPart context
    match ov.value with
    | some v =>
      if ov.success ∧ guard v then some { success := true, value := some (invert v) }
      else none
    | none => none

/-- `{ success: false, error: 'Cannot solve algebraically, ...' }`. -/
def cannotSolveRes : EvaluationResult :=
  { success := false, error := some "Cannot solve algebraically, will use numerical method" }

/-- `trySolveAlgebraically(parent, child, targetValue)` (lines 386–475):
six pattern blocks in source order — `child * rest` / `rest * child`
(guarded `rest ≠ 0`, result `target / rest`), `child + rest` /
`rest + child` (`target - rest`), `child - rest` (`target + rest`),
`rest - child` (`rest - target`), `child / rest` (guarded `rest ≠ 0`,
`target * rest`), `rest / child` (guarded `target ≠ 0`, `rest / target`). -/
def trySolveAlgebraically (reg : NodeRegistry) (parent child : FormulaNode)
    (targetValue : JsNum) : EvaluationResult :=
  let formula := parent.formula.getD ""
  let childName := child.name
  let context := algebraicContext reg parent child
  (algStep (matchMul formula childName) context (· ≠ .num 0)
      (fun v => jsDiv targetValue v)).getD <|
  (algStep (matchAdd formula childName) context (fun _ => true)
      (fun v => jsSub targetValue v)).getD <|
  (algStep (matchPatA formula childName '-') context (fun _ => true)
      (fun v => jsAdd targetValue v)).getD <|
  (algStep (matchPatB formula childName '-') context (fun _ => true)
      (fun v => jsSub v targetValue)).getD <|
  (algStep (matchPatA formula childName '/') context (· ≠ .num 0)
      (fun v => jsMul targetValue v)).getD <|
  (algStep (matchPatB formula childName '/') context (fun _ => targetValue ≠ .num 0)
      (fun v => jsDiv v targetValue)).getD <|
  cannotSolveRes

/-- `1e-6`, the solver tolerance. -/
def solveTol : JsNum := .num (Rat.divInt 1 1000000)

/-- `1e-12`, the stalled-slope threshold. -/
def solveEps : JsNum := .num (Rat.divInt 1 1000000000000)

/-- `tolerance * 10`. -/
def solveTol10 : JsNum := .num (Rat.divInt 1 100000)

/-- The iteration loop of `solveNumerically` (secant method), counting the
remaining iterations down from 100.  `rand k` models the `Math.random()`
draw of the k-th perturbation (a JavaScript `continue` still consumes a
loop iteration via `i++`). -/
def solveLoop (ev : JsNum → JsNum) (targetValue : JsNum) (rand : Nat → JsNum) :
    Nat → Nat → JsNum → JsNum → JsNum → JsNum → EvaluationResult
  | 0, _, _, x1, _, f1 =>
    if jsLt (jsAbs f1) solveTol10 then { success := true, value := some x1 }
    else { success := false, error := some "Could not converge to a solution within tolerance" }
  | fuel + 1, k, x0, x1, f0, f1 =>
    if jsLt (jsAbs f1) solveTol then { success := true, value := some x1 }
    else if jsLt (jsAbs (jsSub f1 f0)) solveEps then
      let x1' := jsAdd x1 (jsMul (jsMul (jsSub (rand k) (.num (Rat.divInt 1 2))) (jsAbs x1))
        (.num (Rat.divInt 1 10)))
      let f1' := jsSub (ev x1') targetValue
      solveLoop ev targetValue rand fuel (k + 1) x0 x1' f0 f1'
    else
      let xNext := jsSub x1 (jsDiv (jsMul f1 (jsSub x1 x0)) (jsSub f1 f0))
      if !jsIsFinite xNext then
        { success := false, error := some "Numerical solution diverged" }
      else
        let f1' := jsSub (ev xNext) targetValue
        if f1' = .nan then
          { success := false, error := some "Formula evaluation resulted in NaN" }
        else
          solveLoop ev targetValue rand fuel (k + 1) x1 xNext f1 f1'

/-- `solveNumerically(evaluateFunc, targetValue, initialGuess)`
(lines 480–530): seeds `x0 = guess`, `x1 = guess === 0 ? 1 : guess * 1.1`,
then up to 100 secant iterations. -/
def solveNumerically (rand : Nat → JsNum) (ev : JsNum → JsNum)
    (targetValue initialGuess : JsNum) : EvaluationResult :=
  let x0 := initialGuess
  let x1 := if initialGuess = .num 0 then .num 1
    else jsMul initialGuess (.num (Rat.divInt 11 10))
  let f0 := jsSub (ev x0) targetValue
  let f1 := jsSub (ev x1) targetValue
  solveLoop ev targetValue rand 100 0 x0 x1 f0 f1

/-- The context builder of `computeChildValue` (`buildContext`): every
child of the parent, with the target child (compared by map key) forced to
the probe value. -/
def buildSolveContext (reg : NodeRegistry) (parent : FormulaNode) (childId : String)
    (childValue : JsNum) : EvaluationContext :=
  parent.childrenIds.foldl (fun ctx cId =>
    match mapGet reg.nodes cId with
    | none => ctx
    | some c =>
      if cId = childId then ctxSet ctx c.name childValue
      else ctxSet ctx c.name (c.computedValue.getD (.num 0))) []

/-- `computeChildValue(parentId, childId, targetValue)` (lines 317–381):
precondition checks in source order, then the algebraic stage; only if the
algebraic stage produced no value does the numerical stage run (`rand` is
the `Math.random()` stream it would consume). -/
def computeChildValue (rand : Nat → JsNum) (reg : NodeRegistry)
    (parentId childId : String) (targetValue : JsNum) : EvaluationResult :=
  match mapGet reg.nodes parentId with
  | none => { success := false, error := some "Parent node not found" }
  | some parent =>
    match mapGet reg.nodes childId with
    | none => { success := false, error := some "Child node not found" }
    | some child =>
      if parent.type ≠ "formula" then
        { success := false, error := some "Parent must be a formula node" }
      else if !parent.childrenIds.contains childId then
        { success := false, error := some "Child is not part of parent formula" }
      else if parent.formula = none ∨ parent.formula = some "" then
        { success := false, error := some "Parent has no formula" }
      else
        let originalChildValue := if child.type = "factor" then child.value else child.computedValue
        let evaluateWithChildValue := fun x =>
          let r := evaluateFormula (parent.formula.getD "") (buildSolveContext reg parent childId x)
          match r.value with
          | some v => if r.success then v else JsNum.nan
          | none => JsNum.nan
        let algebraicSolution := trySolveAlgebraically reg parent child targetValue
        if algebraicSolution.success ∧ algebraicSolution.value ≠ none then algebraicSolution
        else solveNumerically rand evaluateWithChildValue targetValue
          (originalChildValue.getD (.num 0))
/-! ## Import (`importFromJson`, lines 590–624)

`JSON.parse` is modelled as an oracle: the import takes `Option JsonValue`,
where `none` is a parse failure (the `catch` branch) and `some v` the parsed
document.  `JsonValue.jsUndefined` represents the JavaScript `undefined` that
array destructuring can produce; it never comes from the parser itself. -/

/-- A parsed JavaScript value. -/
inductive JsonValue where
  | null
  | jsUndefined
  | bool (b : Bool)
  | num (q : ℚ)
  | str (s : String)
  | arr (elems : List JsonValue)
  | obj (fields : List (String × JsonValue))

/-- Property access `v.field` on a parsed value: object lookup, undefined
otherwise.  (In JavaScript, access on `null`/`undefined` throws a
`TypeError`, which the surrounding `try` turns into the same failure result
before any mutation; the model merges the two failure routes.) -/
def jsonField (v : JsonValue) (field : String) : JsonValue :=
  match v with
  | .obj fields =>
    match fields.lookup field with
    | some w => w
    | none => .jsUndefined
  | _ => .jsUndefined

/-- `Array.isArray`. -/
def jsonIsArray : JsonValue → Bool
  | .arr _ => true
  | _ => false

/-- JavaScript truthiness of a parsed value (`!importData.nodes`). -/
def jsonTruthy : JsonValue → Bool
  | .null => false
  | .jsUndefined => false
  | .bool b => b
  | .num q => !(ratIsZero q)
  | .str s => !s.isEmpty
  | .arr _ => true
  | .obj _ => true

/-- `const [id, node] = entry`: array and string destructuring succeed
(missing positions become `undefined`), everything else throws
(`none`). -/
def destructurePair : JsonValue → Option (JsonValue × JsonValue)
  | .arr [] => some (.jsUndefined, .jsUndefined)
  | .arr [a] => some (a, .jsUndefined)
  | .arr (a :: b :: _) => some (a, b)
  | .str s =>
    match s.data with
    | [] => some (.jsUndefined, .jsUndefined)
    | [c] => some (.str (String.mk [c]), .jsUndefined)
    | c1 :: c2 :: _ => some (.str (String.mk [c1]), .str (String.mk [c2]))
  | _ => none

/-- Read a string-valued field of a node record (`undefined` → `none`). -/
def jsonStrField (v : JsonValue) (field : String) : Option String :=
  match jsonField v field with
  | .str s => some s
  | _ => none

/-- Read a numeric field of a node record (`undefined` → `none`). -/
def jsonNumField (v : JsonValue) (field : String) : Option JsNum :=
  match jsonField v field with
  | .num q => some (.num q)
  | _ => none

/-- Read a string-array field of a node record. -/
def jsonStrListField (v : JsonValue) (field : String) : Option (List String) :=
  match jsonField v field with
  | .arr elems => some (elems.filterMap (fun e =>
      match e with
      | .str s => some s
      | _ => none))
  | _ => none

/-- The unchecked `node as FormulaNode` cast of the import loop, restricted
to the fields the engine reads: each field is taken from the parsed object
when it has the expected shape and left absent otherwise.  (Field-level
malformedness — e.g. a node without `childrenIds` — makes the JavaScript
engine fail later in ways outside every claim; the model defaults such
fields.) -/
def decodeNode (v : JsonValue) : FormulaNode :=
  { id := (jsonStrField v "id").getD ""
    name := (jsonStrField v "name").getD ""
    type := (jsonStrField v "type").getD ""
    formula := jsonStrField v "formula"
    value := jsonNumField v "value"
    childrenIds := (jsonStrListField v "childrenIds").getD []
    computedValue := jsonNumField v "computedValue"
    description := jsonStrField v "description"
    unit := jsonStrField v "unit"
    parentIds := jsonStrListField v "parentIds" }

/-- The import result type (`{ success: boolean; error?: string }`). -/
structure ImportResult where
  success : Bool
  error : Option String := none
deriving DecidableEq, Repr

/-- The entry loop of `importFromJson`: set each destructured `[id, node]`
pair into the node map; a non-destructurable entry throws, aborting the
loop with the registry as mutated so far.  (Entries whose id is not a
string are stored in the JavaScript `Map` under a non-string key, invisible
to every string-keyed operation of the engine; the model skips them.) -/
def importEntries : List JsonValue → NodeRegistry → NodeRegistry × Bool
  | [], reg => (reg, true)
  | e :: rest, reg =>
    match destructurePair e with
    | none => (reg, false)
    | some (idv, nodev) =>
      match idv with
      | .str s => importEntries rest (regSet reg s (decodeNode nodev))
      | _ => importEntries rest reg

/-- `importFromJson(jsonString)` (lines 590–624): validate that `nodes` and
`rootNodeIds` are arrays (failure without mutation otherwise), then clear
the registry, set every entry, install the root ids, and re-evaluate all
roots; any throw from the entry loop is caught and returned as a failure —
after the clearing has already happened. -/
def importFromJson (parsed : Option JsonValue) (reg : NodeRegistry) :
    NodeRegistry × ImportResult :=
  match parsed with
  | none => (reg, { success := false, error := some "Import failed: parse error" })
  | some importData =>
    let nodesV := jsonField importData "nodes"
    if !jsonTruthy nodesV || !jsonIsArray nodesV then
      (reg, { success := false, error := some "Invalid format: missing nodes array" })
    else
      let rootsV := jsonField importData "rootNodeIds"
      if !jsonTruthy rootsV || !jsonIsArray rootsV then
        (reg, { success := false, error := some "Invalid format: missing rootNodeIds array" })
      else
        let entries := match nodesV with
          | .arr es => es
          | _ => []
        let cleared := clearRegistry reg
        let (reg1, ok) := importEntries entries cleared
        if !ok then
          (reg1, { success := false, error := some "Import failed: entry not iterable" })
        else
          let roots := match rootsV with
            | .arr es => es.filterMap (fun e =>
                match e with
                | .str s => some s
                | _ => none)
            | _ => []
          let reg2 := { reg1 with rootNodeIds := roots }
          (evaluateAllRoots reg2, { success := true })
/-! ## Concrete fixtures used by the claim theorems -/

/-- Cycle fixture, node `A`: a formula over `B` while `B` lists `A` back. -/
def cycleNodeA : FormulaNode :=
  { id := "A", name := "a", type := "formula", formula := some "b + 1",
    childrenIds := ["B"], parentIds := some ["B"] }

/-- Cycle fixture, node `B`. -/
def cycleNodeB : FormulaNode :=
  { id := "B", name := "b", type := "formula", formula := some "a + 1",
    childrenIds := ["A"], parentIds := some ["A"] }

/-- A two-node registry in which `A` lists `B` as a child and `B` lists `A`
as a child (the mutual cycle of claim C2). -/
def cycleReg : NodeRegistry :=
  { nodes := [("A", cycleNodeA), ("B", cycleNodeB)] }

/-- Deletion fixture: factor `n` with the two formula parents `p1`, `p2`,
each listing `n` as its only child; `parentIds`/`childrenIds` mirror
exactly. -/
def deleteNodeN : FormulaNode :=
  { id := "n", name := "n", type := "factor", value := some (.num 1),
    computedValue := some (.num 1), childrenIds := [], parentIds := some ["p1", "p2"] }

/-- Deletion fixture, first parent. -/
def deleteNodeP1 : FormulaNode :=
  { id := "p1", name := "p1", type := "formula", formula := some "n",
    childrenIds := ["n"], parentIds := some [] }

/-- Deletion fixture, second parent. -/
def deleteNodeP2 : FormulaNode :=
  { id := "p2", name := "p2", type := "formula", formula := some "n",
    childrenIds := ["n"], parentIds := some [] }

/-- The three-node registry for claim C3: `n` has the two parents
`p1` and `p2`. -/
def deleteReg : NodeRegistry :=
  { nodes := [("n", deleteNodeN), ("p1", deleteNodeP1), ("p2", deleteNodeP2)] }

/-- Diamond fixture (claim C6): root `D = b + c`, siblings `B = s + 1` and
`C = s + 2`, and the shared factor `S` (named `s`, value 7) reachable from
`D` along both descent paths. -/
def diamondNodeD : FormulaNode :=
  { id := "D", name := "d", type := "formula", formula := some "b + c",
    childrenIds := ["B", "C"], parentIds := some [] }

/-- Diamond fixture, left sibling. -/
def diamondNodeB : FormulaNode :=
  { id := "B", name := "b", type := "formula", formula := some "s + 1",
    childrenIds := ["S"], parentIds := some ["D"] }

/-- Diamond fixture, right sibling. -/
def diamondNodeC : FormulaNode :=
  { id := "C", name := "c", type := "formula", formula := some "s + 2",
    childrenIds := ["S"], parentIds := some ["D"] }

/-- Diamond fixture, the shared factor. -/
def diamondNodeS : FormulaNode :=
  { id := "S", name := "s", type := "factor", value := some (.num 7),
    computedValue := some (.num 7), childrenIds := [], parentIds := some ["B", "C"] }

/-- The acyclic diamond registry of claim C6. -/
def diamondReg : NodeRegistry :=
  { nodes := [("D", diamondNodeD), ("B", diamondNodeB), ("C", diamondNodeC),
    ("S", diamondNodeS)] }

/-- C7 scenario, step 1: create factor `price = 100`. -/
def scenarioPrice : String × ServiceState := createFactorNode {} "price" (.num 100)

/-- C7 scenario, step 2: create factor `qty = 5`. -/
def scenarioQty : String × ServiceState := createFactorNode scenarioPrice.2 "qty" (.num 5)

/-- C7 scenario, step 3: create formula `subtotal = price * qty` with the
two factors as children. -/
def scenarioSubtotal : String × ServiceState :=
  createFormulaNode scenarioQty.2 "subtotal" "price * qty" [scenarioPrice.1, scenarioQty.1]

/-- C7 scenario: mark `subtotal` as a root (the tree whose cascade the
claim observes). -/
def scenarioReg : NodeRegistry := addRootNode scenarioSubtotal.2.registry scenarioSubtotal.1

/-- C7 scenario, after `updateNode` sets `price` to 150 (factor update →
`evaluateAllRoots` cascade). -/
def scenarioRegUpdated : NodeRegistry :=
  updateNode scenarioReg scenarioPrice.1 { value := some (.num 150) }

/-- Reverse-solver fixture (claim C8): parent `P : price * quantity`. -/
def solveNodeP : FormulaNode :=
  { id := "P", name := "subtotal", type := "formula", formula := some "price * quantity",
    childrenIds := ["cp", "cq"], parentIds := some [] }

/-- Reverse-solver fixture: the target child `price = 100`. -/
def solveNodeCp : FormulaNode :=
  { id := "cp", name := "price", type := "factor", value := some (.num 100),
    computedValue := some (.num 100), childrenIds := [], parentIds := some ["P"] }

/-- Reverse-solver fixture: the sibling `quantity = 5`. -/
def solveNodeCq : FormulaNode :=
  { id := "cq", name := "quantity", type := "factor", value := some (.num 5),
    computedValue := some (.num 5), childrenIds := [], parentIds := some ["P"] }

/-- The registry of claim C8. -/
def solveReg : NodeRegistry :=
  { nodes := [("P", solveNodeP), ("cp", solveNodeCp), ("cq", solveNodeCq)] }

/-- A pre-existing registry for the import claims. -/
def importPre : NodeRegistry :=
  { nodes := [("x", { id := "x", name := "x", type := "factor", value := some (.num 1) })],
    rootNodeIds := ["x"] }

/-- A parsed import document whose top-level shape is valid (both arrays
present) but whose single node entry, the number `5`, cannot be
destructured as an `[id, node]` pair. -/
def importBadEntriesDoc : JsonValue :=
  .obj [("nodes", .arr [.num 5]), ("rootNodeIds", .arr [])]

/-- A formula node with no formula string; its cached `computedValue` is 9. -/
def noFormulaNodeF : FormulaNode :=
  { id := "F", name := "f", type := "formula", formula := none,
    computedValue := some (.num 9) }

/-- A registry whose only node is a formula with no formula string: every
evaluation of it fails. -/
def noFormulaReg : NodeRegistry :=
  { nodes := [("F", noFormulaNodeF)] }

/-- `addChild` witness fixture: the parent `p`, already listing `c`. -/
def addChildNodeP : FormulaNode :=
  { id := "p", name := "p", type := "formula", formula := some "c",
    childrenIds := ["c"], parentIds := some [] }

/-- `addChild` witness fixture: the child `c`. -/
def addChildNodeC : FormulaNode :=
  { id := "c", name := "c", type := "factor", value := some (.num 2),
    computedValue := some (.num 2), childrenIds := [], parentIds := some ["p"] }

/-- A parent/child registry for the `addChild` witness: `p` already lists
`c`. -/
def addChildReg : NodeRegistry :=
  { nodes := [("p", addChildNodeP), ("c", addChildNodeC)] }

/-! # Theorems

Helper lemmas about the map and list primitives, then the structural
lemmas about `evalNodeF`, then the claim theorems. -/

theorem mapGet_mem_keys {m : List (String × FormulaNode)} {k : String} {v : FormulaNode}
    (h : mapGet m k = some v) : k ∈ m.map Prod.fst := by
  induction m with
  | nil => simp [mapGet] at h
  | cons e rest ih =>
    obtain ⟨k', v'⟩ := e
    by_cases hk : k' = k
    · subst hk; simp
    · rw [mapGet, if_neg hk] at h
      simpa using Or.inr (ih h)

theorem mapSet_keys_of_mem {m : List (String × FormulaNode)} {k : String} (v : FormulaNode)
    (h : k ∈ m.map Prod.fst) : (mapSet m k v).map Prod.fst = m.map Prod.fst := by
  induction m with
  | nil => simp at h
  | cons e rest ih =>
    obtain ⟨k', v'⟩ := e
    by_cases hk : k' = k
    · subst hk; simp [mapSet]
    · have h' : k = k' ∨ k ∈ rest.map Prod.fst := List.mem_cons.mp h
      have hmem : k ∈ rest.map Prod.fst := by
        rcases h' with h1 | h1
        · exact absurd h1.symm hk
        · exact h1
      simp [mapSet, hk, ih hmem]

theorem mapGet_mapSet_self (m : List (String × FormulaNode)) (k : String) (v : FormulaNode) :
    mapGet (mapSet m k v) k = some v := by
  induction m with
  | nil => simp [mapSet, mapGet]
  | cons e rest ih =>
    obtain ⟨k', v'⟩ := e
    by_cases hk : k' = k
    · subst hk; simp [mapSet, mapGet]
    · simp [mapSet, hk, mapGet, ih]

theorem mapGet_mapSet_ne (m : List (String × FormulaNode)) {k k' : String} (v : FormulaNode)
    (h : k' ≠ k) : mapGet (mapSet m k v) k' = mapGet m k' := by
  have hne : ¬ k = k' := fun hh => h hh.symm
  induction m with
  | nil => simp only [mapSet, mapGet, if_neg hne]
  | cons e rest ih =>
    obtain ⟨k0, v0⟩ := e
    by_cases hk : k0 = k
    · subst hk
      simp only [mapSet, if_pos rfl, mapGet, if_neg hne]
    · by_cases hk' : k0 = k'
      · subst hk'; simp [mapSet, hk, mapGet]
      · simp [mapSet, hk, mapGet, hk', ih]

theorem length_filter_mono {α : Type} (l : List α) (p q : α → Bool)
    (h : ∀ a ∈ l, p a = true → q a = true) :
    (l.filter p).length ≤ (l.filter q).length := by
  induction l with
  | nil => simp
  | cons a rest ih =>
    have ih' := ih (fun x hx => h x (List.mem_cons_of_mem a hx))
    by_cases hp : p a = true
    · have hq := h a (List.mem_cons_self a rest) hp
      simp [List.filter, hp, hq]
      exact ih'
    · have hp' : p a = false := by simpa using hp
      by_cases hq : q a = true
      · simp [List.filter, hp', hq]
        exact Nat.le_succ_of_le ih'
      · have hq' : q a = false := by simpa using hq
        simp [List.filter, hp', hq']
        exact ih'

theorem length_filter_lt {α : Type} (l : List α) (p q : α → Bool) (a : α)
    (ha : a ∈ l) (hqa : q a = true) (hpa : p a = false)
    (h : ∀ x ∈ l, p x = true → q x = true) :
    (l.filter p).length < (l.filter q).length := by
  induction l with
  | nil => simp at ha
  | cons b rest ih =>
    have hmono := length_filter_mono rest p q (fun x hx => h x (List.mem_cons_of_mem b hx))
    rcases List.mem_cons.mp ha with hab | harest
    · subst hab
      simp [List.filter, hpa, hqa]
      exact Nat.lt_succ_of_le hmono
    · have ih' := ih harest (fun x hx => h x (List.mem_cons_of_mem b hx))
      by_cases hp : p b = true
      · have hq := h b (List.mem_cons_self b rest) hp
        simpa [List.filter, hp, hq] using ih'
      · have hp' : p b = false := by simpa using hp
        by_cases hq : q b = true
        · simp [List.filter, hp', hq]
          exact Nat.lt_succ_of_lt ih'
        · have hq' : q b = false := by simpa using hq
          simpa [List.filter, hp', hq'] using ih'

/-- A node with its `computedValue` forgotten: evaluation only ever writes
that field, so everything else is preserved (`evalNodeF_shape`). -/
def nodeShape (n : FormulaNode) : FormulaNode := { n with computedValue := none }

theorem evalChildrenWith_keys (ev : NodeRegistry → String → NodeRegistry × EvaluationResult)
    (h : ∀ r i, ((ev r i).1).nodes.map Prod.fst = r.nodes.map Prod.fst) :
    ∀ (cs : List String) (reg : NodeRegistry) (ctx : EvaluationContext),
      ((evalChildrenWith ev cs reg ctx).1).nodes.map Prod.fst = reg.nodes.map Prod.fst := by
  intro cs
  induction cs with
  | nil => intro reg ctx; rfl
  | cons c rest ih =>
    intro reg ctx
    rw [evalChildrenWith]
    cases hget : mapGet reg.nodes c with
    | none => exact ih reg ctx
    | some child =>
      simp only []
      rw [ih, h]

theorem evalChildrenWith_get (ev : NodeRegistry → String → NodeRegistry × EvaluationResult)
    (n : String) (h : ∀ r i, mapGet ((ev r i).1).nodes n = mapGet r.nodes n) :
    ∀ (cs : List String) (reg : NodeRegistry) (ctx : EvaluationContext),
      mapGet ((evalChildrenWith ev cs reg ctx).1).nodes n = mapGet reg.nodes n := by
  intro cs
  induction cs with
  | nil => intro reg ctx; rfl
  | cons c rest ih =>
    intro reg ctx
    rw [evalChildrenWith]
    cases hget : mapGet reg.nodes c with
    | none => exact ih reg ctx
    | some child =>
      simp only []
      rw [ih, h]

theorem evalChildrenWith_shape (ev : NodeRegistry → String → NodeRegistry × EvaluationResult)
    (h : ∀ r i k, (mapGet ((ev r i).1).nodes k).map nodeShape = (mapGet r.nodes k).map nodeShape) :
    ∀ (cs : List String) (reg : NodeRegistry) (ctx : EvaluationContext) (k : String),
      (mapGet ((evalChildrenWith ev cs reg ctx).1).nodes k).map nodeShape
        = (mapGet reg.nodes k).map nodeShape := by
  intro cs
  induction cs with
  | nil => intro reg ctx k; rfl
  | cons c rest ih =>
    intro reg ctx k
    rw [evalChildrenWith]
    cases hget : mapGet reg.nodes c with
    | none => exact ih reg ctx k
    | some child =>
      simp only []
      rw [ih, h]

theorem evalChildrenWith_congr (ev1 ev2 : NodeRegistry → String → NodeRegistry × EvaluationResult)
    (K : List String)
    (hev : ∀ r i, r.nodes.map Prod.fst = K → ev1 r i = ev2 r i)
    (hkeys : ∀ r i, ((ev1 r i).1).nodes.map Prod.fst = r.nodes.map Prod.fst) :
    ∀ (cs : List String) (reg : NodeRegistry) (ctx : EvaluationContext),
      reg.nodes.map Prod.fst = K →
      evalChildrenWith ev1 cs reg ctx = evalChildrenWith ev2 cs reg ctx := by
  intro cs
  induction cs with
  | nil => intro reg ctx _; rfl
  | cons c rest ih =>
    intro reg ctx hK
    rw [evalChildrenWith, evalChildrenWith]
    cases hget : mapGet reg.nodes c with
    | none => exact ih reg ctx hK
    | some child =>
      simp only []
      rw [← hev reg c hK]
      exact ih _ _ (by rw [hkeys reg c, hK])

theorem unvisitedCount_cons_lt {reg : NodeRegistry} {nodeId : String} {node : FormulaNode}
    {visited : List String} (hget : mapGet reg.nodes nodeId = some node)
    (hnv : nodeId ∉ visited) :
    unvisitedCount reg (nodeId :: visited) < unvisitedCount reg visited := by
  have hmem : nodeId ∈ reg.nodes.map Prod.fst := mapGet_mem_keys hget
  refine length_filter_lt (reg.nodes.map Prod.fst) _ _ nodeId hmem ?_ ?_ ?_
  · simpa using hnv
  · simp
  · intro x _ hx
    simp only [Bool.not_eq_true'] at hx ⊢
    simp only [List.contains_cons, Bool.or_eq_false_iff] at hx
    exact hx.2

theorem evalNodeF_keys : ∀ (fuel : Nat) (reg : NodeRegistry) (nodeId : String)
    (visited : List String),
    ((evalNodeF fuel reg nodeId visited).1).nodes.map Prod.fst = reg.nodes.map Prod.fst := by
  intro fuel
  induction fuel with
  | zero => intro reg nodeId visited; rfl
  | succ fuel ih =>
    intro reg nodeId visited
    rw [evalNodeF]
    cases hget : mapGet reg.nodes nodeId with
    | none => rfl
    | some node =>
      dsimp only []
      by_cases hv : nodeId ∈ visited
      · rw [if_pos hv]
      · rw [if_neg hv]
        by_cases hty : node.type = "factor"
        · rw [if_pos hty]
          exact mapSet_keys_of_mem _ (mapGet_mem_keys hget)
        · rw [if_neg hty]
          cases hf : node.formula with
          | none => rfl
          | some f =>
            dsimp only []
            by_cases hfe : f = ""
            · rw [if_pos hfe]
            · rw [if_neg hfe]
              have hfold := evalChildrenWith_keys
                (fun r i => evalNodeF fuel r i (nodeId :: visited))
                (fun r i => ih r i (nodeId :: visited)) node.childrenIds reg []
              set rc := evalChildrenWith (fun r i => evalNodeF fuel r i (nodeId :: visited))
                node.childrenIds reg [] with hrc
              by_cases hres : (evaluateFormula f rc.2).success = true
                ∧ (evaluateFormula f rc.2).value ≠ none
              · rw [if_pos hres]
                dsimp only []
                rw [regSet]
                dsimp only []
                rw [mapSet_keys_of_mem _ (by rw [hfold]; exact mapGet_mem_keys hget), hfold]
              · rw [if_neg hres]
                exact hfold

theorem evalNodeF_get_of_visited : ∀ (fuel : Nat) (reg : NodeRegistry) (nodeId : String)
    (visited : List String) (n : String), n ∈ visited →
    mapGet ((evalNodeF fuel reg nodeId visited).1).nodes n = mapGet reg.nodes n := by
  intro fuel
  induction fuel with
  | zero => intro reg nodeId visited n _; rfl
  | succ fuel ih =>
    intro reg nodeId visited n hn
    rw [evalNodeF]
    cases hget : mapGet reg.nodes nodeId with
    | none => rfl
    | some node =>
      dsimp only []
      by_cases hv : nodeId ∈ visited
      · rw [if_pos hv]
      · rw [if_neg hv]
        have hne : n ≠ nodeId := fun h => hv (h ▸ hn)
        by_cases hty : node.type = "factor"
        · rw [if_pos hty]
          exact mapGet_mapSet_ne _ _ hne
        · rw [if_neg hty]
          cases hf : node.formula with
          | none => rfl
          | some f =>
            dsimp only []
            by_cases hfe : f = ""
            · rw [if_pos hfe]
            · rw [if_neg hfe]
              have hfold := evalChildrenWith_get
                (fun r i => evalNodeF fuel r i (nodeId :: visited)) n
                (fun r i => ih r i (nodeId :: visited) n (List.mem_cons_of_mem _ hn))
                node.childrenIds reg []
              set rc := evalChildrenWith (fun r i => evalNodeF fuel r i (nodeId :: visited))
                node.childrenIds reg [] with hrc
              by_cases hres : (evaluateFormula f rc.2).success = true
                ∧ (evaluateFormula f rc.2).value ≠ none
              · rw [if_pos hres]
                dsimp only []
                rw [regSet]
                dsimp only []
                rw [mapGet_mapSet_ne _ _ hne]
                exact hfold
              · rw [if_neg hres]
                exact hfold

theorem evalNodeF_shape : ∀ (fuel : Nat) (reg : NodeRegistry) (nodeId : String)
    (visited : List String) (k : String),
    (mapGet ((evalNodeF fuel reg nodeId visited).1).nodes k).map nodeShape
      = (mapGet reg.nodes k).map nodeShape := by
  intro fuel
  induction fuel with
  | zero => intro reg nodeId visited k; rfl
  | succ fuel ih =>
    intro reg nodeId visited k
    rw [evalNodeF]
    cases hget : mapGet reg.nodes nodeId with
    | none => rfl
    | some node =>
      dsimp only []
      by_cases hv : nodeId ∈ visited
      · rw [if_pos hv]
      · rw [if_neg hv]
        by_cases hty : node.type = "factor"
        · rw [if_pos hty]
          dsimp only []
          rw [regSet]
          dsimp only []
          by_cases hk : k = nodeId
          · subst hk
            rw [mapGet_mapSet_self, hget]
            rfl
          · rw [mapGet_mapSet_ne _ _ hk]
        · rw [if_neg hty]
          cases hf : node.formula with
          | none => rfl
          | some f =>
            dsimp only []
            by_cases hfe : f = ""
            · rw [if_pos hfe]
            · rw [if_neg hfe]
              have hfold := fun k => evalChildrenWith_shape
                (fun r i => evalNodeF fuel r i (nodeId :: visited))
                (fun r i k' => ih r i (nodeId :: visited) k')
                node.childrenIds reg [] k
              set rc := evalChildrenWith (fun r i => evalNodeF fuel r i (nodeId :: visited))
                node.childrenIds reg [] with hrc
              by_cases hres : (evaluateFormula f rc.2).success = true
                ∧ (evaluateFormula f rc.2).value ≠ none
              · rw [if_pos hres]
                dsimp only []
                rw [regSet]
                dsimp only []
                by_cases hk : k = nodeId
                · subst hk
                  rw [mapGet_mapSet_self, hget]
                  have hnode := hfold k
                  rw [hget] at hnode
                  cases hlive : mapGet rc.1.nodes k with
                  | none =>
                    rw [hlive] at hnode
                    exact absurd hnode (by simp)
                  | some w =>
                    rw [hlive] at hnode
                    have hw : nodeShape w = nodeShape node := by simpa using hnode
                    show some (nodeShape { w with computedValue := (evaluateFormula f rc.2).value })
                      = some (nodeShape node)
                    have hshape : nodeShape { w with computedValue := (evaluateFormula f rc.2).value }
                        = nodeShape w := rfl
                    rw [hshape, hw]
                · rw [mapGet_mapSet_ne _ _ hk]
                  exact hfold k
              · rw [if_neg hres]
                exact hfold k

theorem unvisitedCount_congr {r reg : NodeRegistry} (visited : List String)
    (h : r.nodes.map Prod.fst = reg.nodes.map Prod.fst) :
    unvisitedCount r visited = unvisitedCount reg visited := by
  unfold unvisitedCount
  rw [h]

theorem evalNodeF_stable : ∀ (fuel : Nat) (reg : NodeRegistry) (nodeId : String)
    (visited : List String), unvisitedCount reg visited < fuel →
    evalNodeF fuel reg nodeId visited = evalNodeF (fuel + 1) reg nodeId visited := by
  intro fuel
  induction fuel with
  | zero => intro reg nodeId visited h; exact absurd h (Nat.not_lt_zero _)
  | succ fuel ih =>
    intro reg nodeId visited hcount
    conv_lhs => rw [evalNodeF]
    conv_rhs => rw [evalNodeF]
    cases hget : mapGet reg.nodes nodeId with
    | none => rfl
    | some node =>
      dsimp only []
      by_cases hv : nodeId ∈ visited
      · rw [if_pos hv, if_pos hv]
      · rw [if_neg hv, if_neg hv]
        by_cases hty : node.type = "factor"
        · rw [if_pos hty, if_pos hty]
        · rw [if_neg hty, if_neg hty]
          cases hf : node.formula with
          | none => rfl
          | some f =>
            dsimp only []
            by_cases hfe : f = ""
            · rw [if_pos hfe, if_pos hfe]
            · rw [if_neg hfe, if_neg hfe]
              have hlt : unvisitedCount reg (nodeId :: visited) < fuel := by
                have hstep := unvisitedCount_cons_lt hget hv
                omega
              have hfold : evalChildrenWith (fun r i => evalNodeF fuel r i (nodeId :: visited))
                  node.childrenIds reg []
                  = evalChildrenWith (fun r i => evalNodeF (fuel + 1) r i (nodeId :: visited))
                    node.childrenIds reg [] := by
                refine evalChildrenWith_congr _ _ (reg.nodes.map Prod.fst) ?_ ?_
                  node.childrenIds reg [] rfl
                · intro r i hK
                  exact ih r i (nodeId :: visited)
                    (by rw [unvisitedCount_congr (nodeId :: visited) hK]; exact hlt)
                · intro r i
                  exact evalNodeF_keys fuel r i (nodeId :: visited)
              rw [hfold]

theorem evalNodeF_eq_evaluateNode : ∀ (fuel : Nat) (reg : NodeRegistry) (nodeId : String)
    (visited : List String), unvisitedCount reg visited < fuel →
    evalNodeF fuel reg nodeId visited = evaluateNode reg nodeId visited := by
  intro fuel reg nodeId visited h
  unfold evaluateNode
  have key : ∀ g, unvisitedCount reg visited + 1 ≤ g →
      evalNodeF g reg nodeId visited
        = evalNodeF (unvisitedCount reg visited + 1) reg nodeId visited := by
    intro g hg
    induction g, hg using Nat.le_induction with
    | base => rfl
    | succ g hg ihg =>
      rw [← evalNodeF_stable g reg nodeId visited (by omega)]
      exact ihg
  exact key fuel h

theorem formulaErrorMsg_ne (e : String) :
    "Formula evaluation error: " ++ e ≠ "Circular dependency detected" := by
  intro h
  have hd := congrArg String.data h
  rw [String.data_append] at hd
  simp at hd

theorem evaluateFormula_ne_circular (f : String) (context : EvaluationContext) :
    evaluateFormula f context ≠ circularRes := by
  intro h
  have he := congrArg EvaluationResult.error h
  simp only [circularRes] at he
  unfold evaluateFormula at he
  cases hse : safeEvaluate (substituteAll f context) with
  | ok r =>
    simp only [hse] at he
    by_cases hr : r = JsNum.nan
    · rw [if_pos hr] at he
      exact absurd (Option.some.inj he) (by decide)
    · rw [if_neg hr] at he
      simp at he
  | error e =>
    simp only [hse] at he
    exact formulaErrorMsg_ne e (Option.some.inj he)

/-- `evaluateNode` (at any fuel) reports `CircularDependency` exactly when
the evaluated node exists in the registry and its id is already in the
visiting set: cycle reports come only from a repeated id along the current
descent path. -/
theorem evalNodeF_circular_iff (fuel : Nat) (reg : NodeRegistry) (nodeId : String)
    (visited : List String) (hfuel : 1 ≤ fuel) :
    (evalNodeF fuel reg nodeId visited).2 = circularRes
      ↔ ((mapGet reg.nodes nodeId).isSome ∧ nodeId ∈ visited) := by
  obtain ⟨fuel, rfl⟩ : ∃ g, fuel = g + 1 := ⟨fuel - 1, by omega⟩
  rw [evalNodeF]
  cases hget : mapGet reg.nodes nodeId with
  | none =>
    simp only [Option.isSome_none, Bool.false_eq_true, false_and, iff_false]
    intro h
    have := congrArg EvaluationResult.error h
    simp [notFoundRes, circularRes] at this
  | some node =>
    dsimp only []
    by_cases hv : nodeId ∈ visited
    · rw [if_pos hv]
      simp [hv]
    · rw [if_neg hv]
      simp only [Option.isSome_some, true_and, hv, iff_false]
      intro hcontra
      revert hcontra
      by_cases hty : node.type = "factor"
      · rw [if_pos hty]
        intro h
        have := congrArg EvaluationResult.success h
        simp [circularRes] at this
      · rw [if_neg hty]
        cases hf : node.formula with
        | none =>
          intro h
          have := congrArg EvaluationResult.error h
          simp [noFormulaRes, circularRes] at this
        | some f =>
          dsimp only []
          by_cases hfe : f = ""
          · rw [if_pos hfe]
            intro h
            have := congrArg EvaluationResult.error h
            simp [noFormulaRes, circularRes] at this
          · rw [if_neg hfe]
            set rc := evalChildrenWith (fun r i => evalNodeF fuel r i (nodeId :: visited))
              node.childrenIds reg [] with hrc
            by_cases hres : (evaluateFormula f rc.2).success = true
              ∧ (evaluateFormula f rc.2).value ≠ none
            · rw [if_pos hres]
              intro h
              exact evaluateFormula_ne_circular f rc.2 h
            · rw [if_neg hres]
              intro h
              exact evaluateFormula_ne_circular f rc.2 h

theorem evalNodeF_fail_get : ∀ (fuel : Nat) (reg : NodeRegistry) (nodeId : String)
    (visited : List String), (evalNodeF fuel reg nodeId visited).2.success = false →
    mapGet ((evalNodeF fuel reg nodeId visited).1).nodes nodeId = mapGet reg.nodes nodeId := by
  intro fuel reg nodeId visited h
  cases fuel with
  | zero => rfl
  | succ fuel =>
  rw [evalNodeF] at h ⊢
  cases hget : mapGet reg.nodes nodeId with
  | none => dsimp only []; exact hget
  | some node =>
    rw [hget] at h
    dsimp only [] at h ⊢
    by_cases hv : nodeId ∈ visited
    · rw [if_pos hv]
      exact hget
    · rw [if_neg hv] at h ⊢
      by_cases hty : node.type = "factor"
      · rw [if_pos hty] at h
        simp at h
      · rw [if_neg hty] at h ⊢
        cases hf : node.formula with
        | none => exact hget
        | some f =>
          rw [hf] at h
          dsimp only [] at h ⊢
          by_cases hfe : f = ""
          · rw [if_pos hfe]
            exact hget
          · rw [if_neg hfe] at h ⊢
            set rc := evalChildrenWith
              (fun r i => evalNodeF fuel r i (nodeId :: visited))
              node.childrenIds reg [] with hrc
            by_cases hres : (evaluateFormula f rc.2).success = true
              ∧ (evaluateFormula f rc.2).value ≠ none
            · rw [if_pos hres] at h
              dsimp only [] at h
              exact absurd hres.1 (by rw [h]; simp)
            · rw [if_neg hres]
              refine (evalChildrenWith_get _ nodeId
                (fun r i => evalNodeF_get_of_visited fuel r i (nodeId :: visited) nodeId
                  (List.mem_cons_self nodeId visited))
                node.childrenIds reg []).trans hget

/-- C1, counterexample: the claim quantifies over the substituted string
before whitespace removal.  For the formula `"1 + 2"` with an empty context
the substituted string contains a space — a character other than digits,
`.`, `+`, `-`, `*`, `/`, `(`, `)` — yet `evaluateFormula` succeeds with 3,
because `safeEvaluate` strips whitespace before the whitelist test. -/
theorem claim_C1_counterexample :
    evaluateFormula "1 + 2" [] = { success := true, value := some (.num 3) }
    ∧ ' ' ∈ (substituteAll "1 + 2" []).data
    ∧ allowedChar ' ' = false := by decide

/-- C1, amended: if after substituting the context variables at word
boundaries and removing whitespace the resulting string contains any
character other than digits, `.`, `+`, `-`, `*`, `/`, `(`, `)`, then
`evaluateFormula` returns a failure whose error is the caught
whitelist-rejection error — the string never reaches the arithmetic
evaluator, and (the model being a total function) no exception propagates. -/
theorem claim_C1_amended (formula : String) (context : EvaluationContext)
    (c : Char) (hc : c ∈ (removeWhitespace (substituteAll formula context)).data)
    (hbad : allowedChar c = false) :
    (evaluateFormula formula context).success = false
    ∧ (evaluateFormula formula context).error
      = some ("Formula evaluation error: " ++ "Error: Invalid characters in expression") := by
  have hall : (removeWhitespace (substituteAll formula context)).data.all allowedChar = false := by
    by_contra hcon
    have htrue : (removeWhitespace (substituteAll formula context)).data.all allowedChar = true := by
      simpa using hcon
    have := List.all_eq_true.mp htrue c hc
    rw [hbad] at this
    exact absurd this (by simp)
  have hvc : validChars (removeWhitespace (substituteAll formula context)) = false := by
    unfold validChars
    rw [hall]
    simp
  have hres : evaluateFormula formula context
      = { success := false,
          error := some ("Formula evaluation error: " ++ "Error: Invalid characters in expression") } := by
    unfold evaluateFormula safeEvaluate
    simp only [hvc, Bool.not_false, if_true]
  rw [hres]
  exact ⟨rfl, rfl⟩

/-- C1, witness for the amended theorem: the unresolved identifier `"abc"`
(letters survive whitespace removal) makes `evaluateFormula` fail. -/
theorem claim_C1_amended_witness :
    (evaluateFormula "abc" []).success = false :=
  (claim_C1_amended "abc" [] 'a' (by decide) (by decide)).1

/-- C2, counterexample: in the two-node registry `cycleReg` (`A` lists `B`,
`B` lists `A`), `evaluateNode` on `A` with an empty visiting set terminates
but returns success with value 2 — not the circular-dependency failure the
claim requires: the inner recursive call on `A` does report the cycle, but
that child result is discarded at line 153 of the source. -/
theorem claim_C2_counterexample :
    (evaluateNode cycleReg "A" []).2 = { success := true, value := some (.num 2) }
    ∧ (evaluateNode cycleReg "A" []).2 ≠ circularRes := by decide

/-- C2, amended: for every registry in which node `A` lists node `B` in its
childrenIds and `B` lists `A`, `evaluateNode(A)` with an empty visiting set
terminates — expressed in the step-indexed model as the result being the
same for every fuel above the registry bound — and the circular dependency
is detected and reported by any nested call on `A` whose visiting set
already contains `A`; but the top-level call itself never returns the
circular-dependency failure, because child failures are discarded. -/
theorem claim_C2_amended (reg : NodeRegistry) (a b : String) (na nb : FormulaNode)
    (ha : mapGet reg.nodes a = some na) (_hb : mapGet reg.nodes b = some nb)
    (_hab : b ∈ na.childrenIds) (_hba : a ∈ nb.childrenIds) :
    (∀ fuel, unvisitedCount reg [] < fuel →
      evalNodeF fuel reg a [] = evaluateNode reg a [])
    ∧ (∀ fuel visited, 1 ≤ fuel → a ∈ visited →
      (evalNodeF fuel reg a visited).2 = circularRes)
    ∧ (evaluateNode reg a []).2 ≠ circularRes := by
  refine ⟨fun fuel h => evalNodeF_eq_evaluateNode fuel reg a [] h, ?_, ?_⟩
  · intro fuel visited hf hv
    exact (evalNodeF_circular_iff fuel reg a visited hf).mpr ⟨by rw [ha]; rfl, hv⟩
  · intro h
    unfold evaluateNode at h
    have := (evalNodeF_circular_iff (unvisitedCount reg [] + 1) reg a [] (by omega)).mp h
    exact absurd this.2 (List.not_mem_nil a)

/-- C2, witness for the amended theorem, at the concrete registry
`cycleReg`. -/
theorem claim_C2_amended_witness :
    (evaluateNode cycleReg "A" []).2 ≠ circularRes
    ∧ (evalNodeF 1 cycleReg "A" ["A"]).2 = circularRes := by
  have h := claim_C2_amended cycleReg "A" "B" cycleNodeA cycleNodeB
    (by decide) (by decide) (by decide) (by decide)
  exact ⟨h.2.2, h.2.1 1 ["A"] (by decide) (by decide)⟩

/-- C3, code-bug demonstration: in `deleteReg` the factor `n` has the two
parents `p1` and `p2` (links fully mirrored).  `deleteNode("n")` erases `n`
from the map, from the root list and from `p1.childrenIds`, but leaves `n`
inside `p2.childrenIds`: the `for...of` loop iterates `n.parentIds` while
`removeChild` splices that very array, so the iterator skips `p2`. -/
theorem claim_C3_bug_demo :
    (mapGet (deleteNode deleteReg "n").nodes "p1").map (·.childrenIds) = some []
    ∧ (mapGet (deleteNode deleteReg "n").nodes "p2").map (·.childrenIds) = some ["n"]
    ∧ mapGet (deleteNode deleteReg "n").nodes "n" = none
    ∧ (deleteNode deleteReg "n").rootNodeIds = [] := by decide

/-- C4, counterexample: `"1/0"` evaluates to `Infinity`, a non-finite
number, yet `evaluateFormula` returns success carrying it — only `NaN` is
rejected by the `isNaN` guard. -/
theorem claim_C4_counterexample :
    evaluateFormula "1/0" [] = { success := true, value := some .inf }
    ∧ jsIsFinite .inf = false := by decide

/-- C4, amended: `evaluateFormula` never returns a result carrying `NaN`
(the `isNaN` guard turns a `NaN` outcome into a failure); an infinite
arithmetic result, however, is returned as a success (see the
counterexample). -/
theorem claim_C4_amended (formula : String) (context : EvaluationContext) :
    (evaluateFormula formula context).value ≠ some JsNum.nan := by
  intro h
  unfold evaluateFormula at h
  cases hse : safeEvaluate (substituteAll formula context) with
  | ok r =>
    simp only [hse] at h
    by_cases hr : r = JsNum.nan
    · rw [if_pos hr] at h
      simp at h
    · rw [if_neg hr] at h
      exact hr (Option.some.inj h)
  | error e =>
    simp only [hse] at h
    simp at h

/-- C4, witness for the amended theorem at a concrete input. -/
theorem claim_C4_amended_witness :
    (evaluateFormula "1/0" []).value ≠ some JsNum.nan :=
  claim_C4_amended "1/0" []

/-- C5: whenever a call to `evaluateNode` (at any visiting set) returns a
failure — circular dependency, node or formula missing, or formula
evaluation failure — the evaluated node's `computedValue` after the call
equals its value before the call: failure never clears or overwrites the
cached value. -/
theorem claim_C5_stale_on_failure (reg : NodeRegistry) (nodeId : String)
    (visited : List String)
    (h : (evaluateNode reg nodeId visited).2.success = false) :
    (mapGet ((evaluateNode reg nodeId visited).1).nodes nodeId).map (·.computedValue)
      = (mapGet reg.nodes nodeId).map (·.computedValue) := by
  unfold evaluateNode at h ⊢
  rw [evalNodeF_fail_get _ _ _ _ h]

/-- C5, witness: evaluating the formula node with no formula string fails
and leaves its cached `computedValue` (9) in place. -/
theorem claim_C5_witness :
    (evaluateNode noFormulaReg "F" []).2.success = false
    ∧ (mapGet ((evaluateNode noFormulaReg "F" []).1).nodes "F").map (·.computedValue)
      = (mapGet noFormulaReg.nodes "F").map (·.computedValue) :=
  ⟨by decide, claim_C5_stale_on_failure noFormulaReg "F" [] (by decide)⟩

/-- C6: the circular-dependency failure is returned by a call exactly when
the evaluated node exists and its id is already in that call's own visiting
set — i.e. only a repeated id along a single descent path is flagged, never
a node shared between sibling subtrees (each child descends with its own
copy of the visiting set).  In particular, on the acyclic diamond registry
(`D` over siblings `B`, `C`, both over the shared factor `S`), evaluating
`D` succeeds with `(7+1) + (7+2) = 17` and is not a circular failure. -/
theorem claim_C6_shared_node_not_circular :
    (∀ (fuel : Nat) (reg : NodeRegistry) (nodeId : String) (visited : List String),
      1 ≤ fuel →
      ((evalNodeF fuel reg nodeId visited).2 = circularRes
        ↔ (mapGet reg.nodes nodeId).isSome ∧ nodeId ∈ visited))
    ∧ (evaluateNode diamondReg "D" []).2 = { success := true, value := some (.num 17) }
    ∧ (evaluateNode diamondReg "D" []).2 ≠ circularRes := by
  refine ⟨fun fuel reg nodeId visited hf => evalNodeF_circular_iff fuel reg nodeId visited hf,
    by decide, by decide⟩

/-- C6, witness: the iff of the theorem instantiated at fuel 1 on the
diamond registry with `S` already in the visiting set. -/
theorem claim_C6_witness :
    (evalNodeF 1 diamondReg "S" ["S"]).2 = circularRes
      ↔ (mapGet diamondReg.nodes "S").isSome ∧ "S" ∈ ["S"] :=
  claim_C6_shared_node_not_circular.1 1 diamondReg "S" ["S"] (by decide)

/-- C7: in the scenario — factor `price = 100`, factor `qty = 5`, formula
`subtotal = price * qty` over the two factors, `subtotal` marked as root —
`subtotal.computedValue` is 500; after `updateNode` sets `price` to 150 the
cascade (`evaluateAllRoots`) leaves `subtotal.computedValue` at 750. -/
theorem claim_C7_scenario :
    (mapGet scenarioReg.nodes scenarioSubtotal.1).map (·.computedValue)
      = some (some (.num 500))
    ∧ (mapGet scenarioRegUpdated.nodes scenarioSubtotal.1).map (·.computedValue)
      = some (some (.num 750)) := by decide

/-- C8: whenever the parent formula has the exact top-level shape
`child * rest` or `rest * child` (the source's multiplication regexes, the
child's name as one operand) and `rest` evaluates under the current sibling
values (excluding the target child) to a value `v ≠ 0`, the reverse solver
answers `target / v` from the algebraic stage alone: `computeChildValue`
returns it for every random stream — the numerical stage never runs. -/
theorem claim_C8_algebraic_multiplication (reg : NodeRegistry)
    (parentId childId : String) (parent child : FormulaNode) (f rest : String) (v : JsNum)
    (hp : mapGet reg.nodes parentId = some parent)
    (hc : mapGet reg.nodes childId = some child)
    (hty : parent.type = "formula")
    (hmem : parent.childrenIds.contains childId = true)
    (hf : parent.formula = some f) (hfne : f ≠ "")
    (hmatch : matchMul f child.name = some rest)
    (hov : evaluateFormula rest (algebraicContext reg parent child)
      = { success := true, value := some v })
    (hvz : v ≠ .num 0) :
    ∀ (rand : Nat → JsNum) (targetValue : JsNum),
      computeChildValue rand reg parentId childId targetValue
        = { success := true, value := some (jsDiv targetValue v) }
      ∧ trySolveAlgebraically reg parent child targetValue
        = { success := true, value := some (jsDiv targetValue v) } := by
  intro rand targetValue
  have halg : trySolveAlgebraically reg parent child targetValue
      = { success := true, value := some (jsDiv targetValue v) } := by
    unfold trySolveAlgebraically
    rw [hf]
    dsimp only []
    rw [show (some f).getD "" = f from rfl]
    unfold algStep
    rw [hmatch]
    dsimp only []
    rw [hov]
    dsimp only []
    rw [if_pos ⟨rfl, decide_eq_true hvz⟩]
    rfl
  refine ⟨?_, halg⟩
  unfold computeChildValue
  rw [hp, hc]
  dsimp only []
  rw [if_neg (by simp [hty])]
  rw [if_neg (by rw [hmem]; simp)]
  rw [if_neg (by simp [hf, hfne])]
  rw [halg]
  rw [if_pos ⟨rfl, by simp⟩]

/-- C8, witness: for expression `price * quantity` with `quantity = 5` and
target 500, the solver returns 100 (for an arbitrary random stream). -/
theorem claim_C8_witness :
    computeChildValue (fun _ => .num 0) solveReg "P" "cp" (.num 500)
      = { success := true, value := some (.num 100) } := by
  have h := (claim_C8_algebraic_multiplication solveReg "P" "cp" solveNodeP solveNodeCp
    "price * quantity" "quantity" (.num 5) (by decide) (by decide) (by decide) (by decide)
    (by decide) (by decide) (by decide) (by decide) (by decide)
    (fun _ => .num 0) (.num 500)).1
  rw [h]
  decide

/-- C9, counterexample: for the document whose `nodes` entry list contains
the number 5 — an entry that cannot be destructured as an `[id, node]`
pair — `importFromJson` does return a failure, but only after
`clearRegistry()` has run: the pre-existing registry is emptied, not left
unchanged. -/
theorem claim_C9_counterexample :
    (importFromJson (some importBadEntriesDoc) importPre).2.success = false
    ∧ (importFromJson (some importBadEntriesDoc) importPre).1 ≠ importPre
    ∧ (importFromJson (some importBadEntriesDoc) importPre).1.nodes = [] := by decide

/-- C9, amended: a JSON parse failure, a missing/non-array `nodes` field,
or a missing/non-array `rootNodeIds` field each yield a failure result with
the pre-existing registry completely unchanged; but an entry-level
destructuring failure aborts after the registry has already been cleared
(see the counterexample). -/
theorem claim_C9_amended (reg : NodeRegistry) :
    importFromJson none reg
      = (reg, { success := false, error := some "Import failed: parse error" })
    ∧ (∀ doc, jsonIsArray (jsonField doc "nodes") = false →
        importFromJson (some doc) reg
          = (reg, { success := false, error := some "Invalid format: missing nodes array" }))
    ∧ (∀ doc, jsonIsArray (jsonField doc "rootNodeIds") = false →
        (importFromJson (some doc) reg).1 = reg
        ∧ (importFromJson (some doc) reg).2.success = false) := by
  refine ⟨rfl, ?_, ?_⟩
  · intro doc h
    unfold importFromJson
    dsimp only []
    rw [if_pos (by rw [h]; simp)]
  · intro doc h
    unfold importFromJson
    dsimp only []
    by_cases hn : (!jsonTruthy (jsonField doc "nodes")
        || !jsonIsArray (jsonField doc "nodes")) = true
    · rw [if_pos hn]
      exact ⟨rfl, rfl⟩
    · rw [if_neg hn]
      rw [if_pos (by rw [h]; simp)]
      exact ⟨rfl, rfl⟩

/-- C9, witness for the amended theorem: importing the object `{}` (no
`nodes` array) into the pre-existing registry fails without mutation. -/
theorem claim_C9_amended_witness :
    importFromJson (some (JsonValue.obj [])) importPre
      = (importPre, { success := false, error := some "Invalid format: missing nodes array" }) :=
  (claim_C9_amended importPre).2.1 (JsonValue.obj []) rfl

theorem nodupInv_regSet (reg : NodeRegistry) (id : String) (nd : FormulaNode)
    (hinv : ∀ k n, mapGet reg.nodes k = some n → n.childrenIds.Nodup)
    (hnd : nd.childrenIds.Nodup) :
    ∀ k n, mapGet (regSet reg id nd).nodes k = some n → n.childrenIds.Nodup := by
  intro k n hk
  rw [regSet] at hk
  dsimp only [] at hk
  by_cases hkid : k = id
  · subst hkid
    rw [mapGet_mapSet_self] at hk
    cases hk
    exact hnd
  · rw [mapGet_mapSet_ne _ _ hkid] at hk
    exact hinv k n hk

theorem nodupInv_evaluateNode (reg : NodeRegistry) (id : String) (visited : List String)
    (hinv : ∀ k n, mapGet reg.nodes k = some n → n.childrenIds.Nodup) :
    ∀ k n, mapGet ((evaluateNode reg id visited).1).nodes k = some n →
      n.childrenIds.Nodup := by
  intro k n hk
  have hshape := evalNodeF_shape (unvisitedCount reg visited + 1) reg id visited k
  unfold evaluateNode at hk
  rw [hk] at hshape
  cases hpre : mapGet reg.nodes k with
  | none => rw [hpre] at hshape; simp at hshape
  | some m =>
    rw [hpre] at hshape
    have hcs : n.childrenIds = m.childrenIds := by
      have := congrArg (Option.map (fun nd => nd.childrenIds)) hshape
      simpa [nodeShape] using this
    rw [hcs]
    exact hinv k m hpre

/-- C10: `addChild(parentId, childId)` with the child already listed in the
parent's childrenIds is a complete no-op — the registry (hence every node,
every link and every cached value: no re-evaluation happens) is unchanged;
and `addChild` preserves the invariant that no node's childrenIds contains
a duplicate, so no sequence of `addChild` calls can ever produce one. -/
theorem claim_C10_addChild_no_duplicates :
    (∀ (reg : NodeRegistry) (parentId childId : String) (parent : FormulaNode),
      mapGet reg.nodes parentId = some parent →
      parent.childrenIds.contains childId = true →
      addChild reg parentId childId = reg)
    ∧ (∀ (reg : NodeRegistry) (parentId childId : String),
        (∀ k n, mapGet reg.nodes k = some n → n.childrenIds.Nodup) →
        ∀ k n, mapGet (addChild reg parentId childId).nodes k = some n →
          n.childrenIds.Nodup) := by
  constructor
  · intro reg parentId childId parent hp hcont
    unfold addChild
    rw [hp]
    cases hc : mapGet reg.nodes childId with
    | none => rfl
    | some child =>
      dsimp only []
      rw [if_pos hcont]
  · intro reg parentId childId hinv
    unfold addChild
    cases hp : mapGet reg.nodes parentId with
    | none => exact hinv
    | some parent =>
      cases hc : mapGet reg.nodes childId with
      | none => exact hinv
      | some child =>
        dsimp only []
        by_cases hcont : parent.childrenIds.contains childId = true
        · rw [if_pos hcont]
          exact hinv
        · rw [if_neg hcont]
          have hnotmem : childId ∉ parent.childrenIds := by simpa using hcont
          have hnodupP : (parent.childrenIds ++ [childId]).Nodup := by
            rw [List.nodup_append]
            refine ⟨hinv parentId parent hp, List.nodup_singleton childId, ?_⟩
            intro a ha hb
            have : a = childId := by simpa using hb
            exact hnotmem (this ▸ ha)
          have hinv1 : ∀ k n, mapGet (regSet reg parentId
                { parent with childrenIds := parent.childrenIds ++ [childId] }).nodes k
                = some n → n.childrenIds.Nodup :=
            nodupInv_regSet reg parentId _ hinv hnodupP
          have hinv2 : ∀ k n, mapGet (if (((mapGet (regSet reg parentId
                  { parent with childrenIds := parent.childrenIds ++ [childId] }).nodes
                  childId).getD child).parentIds.getD []).contains parentId
                then regSet reg parentId
                  { parent with childrenIds := parent.childrenIds ++ [childId] }
                else regSet (regSet reg parentId
                  { parent with childrenIds := parent.childrenIds ++ [childId] }) childId
                  { (mapGet (regSet reg parentId
                      { parent with childrenIds := parent.childrenIds ++ [childId] }).nodes
                      childId).getD child with
                    parentIds := some ((((mapGet (regSet reg parentId
                      { parent with childrenIds := parent.childrenIds ++ [childId] }).nodes
                      childId).getD child).parentIds.getD []) ++ [parentId]) }).nodes k
              = some n → n.childrenIds.Nodup := by
            split
            · exact hinv1
            · refine nodupInv_regSet _ childId _ hinv1 ?_
              cases hlive : mapGet (regSet reg parentId
                  { parent with childrenIds := parent.childrenIds ++ [childId] }).nodes
                  childId with
              | none => exact hinv childId child hc
              | some w => exact hinv1 childId w hlive
          split
          · exact nodupInv_evaluateNode _ parentId [] hinv2
          · exact hinv2

/-- C10, witness: adding the already-listed child `c` to `p` leaves
`addChildReg` unchanged. -/
theorem claim_C10_witness : addChild addChildReg "p" "c" = addChildReg :=
  claim_C10_addChild_no_duplicates.1 addChildReg "p" "c" addChildNodeP
    (by decide) (by decide)
